import Mathlib

/-!
# Verification of the task_app scheduling and execution engine

Shallow embedding, in Lean 4, of the core components of the `task_app`
repository (a Flask script/ETL automation platform):

* `Schedule.calculate_next_execution` (src/app/models/schedule.py) — the
  recurrence calculator;
* the `Execution` state-transition methods (src/app/models/execution.py),
  the executor failure branch and the guarded cancel entry points
  (src/app/services/script_executor.py, src/scriptflow.py);
* the concurrency admission check of `ScriptExecutor.execute_script`
  (src/app/services/script_executor.py);
* `ConnectionManager.validate_query` (src/app/services/connection_manager.py);
* the Load phase batching and counter recording of `ETLExecutor`
  (src/app/services/etl_executor.py).

Instants are modelled as integer seconds since the Unix epoch
(1970-01-01 00:00:00, a Thursday).  Python's `datetime` comparison is
chronological comparison of instants, `//` is floor division and `%` a
nonnegative remainder for positive moduli; since every divisor used below is
positive, integer `/` and `%` (`Int.ediv` / `Int.emod`) coincide with the
Python operators.
-/

namespace TaskApp

/-! ## Calendar arithmetic

Day numbers are days since 1970-01-01.  `days_from_civil` and
`civil_from_days` are the standard civil-calendar conversions (used here to
model Python's `datetime.strptime`, `.replace(day=…, month=…, year=…)` and
`.weekday()`). -/

/-- Gregorian leap-year test. -/
def isLeap (y : Int) : Bool :=
  (y % 4 = 0 && y % 100 ≠ 0) || y % 400 = 0

/-- Number of days in month `m` of year `y`. -/
def daysInMonth (y m : Int) : Int :=
  if m = 2 then (if isLeap y then 29 else 28)
  else if m = 4 ∨ m = 6 ∨ m = 9 ∨ m = 11 then 30
  else 31

/-- Days since 1970-01-01 of the civil date `y-m-d` (valid dates). -/
def days_from_civil (y m d : Int) : Int :=
  let y' := if m ≤ 2 then y - 1 else y
  let era := y' / 400
  let yoe := y' - era * 400
  let mp  := if m > 2 then m - 3 else m + 9
  let doy := (153 * mp + 2) / 5 + d - 1
  let doe := yoe * 365 + yoe / 4 - yoe / 100 + doy
  era * 146097 + doe - 719468

/-- Civil date `(y, m, d)` of a day number (days since 1970-01-01). -/
def civil_from_days (z0 : Int) : Int × Int × Int :=
  let z := z0 + 719468
  let era := z / 146097
  let doe := z - era * 146097
  let yoe := (doe - doe / 1460 + doe / 36524 - doe / 146096) / 365
  let y := yoe + era * 400
  let doy := doe - (365 * yoe + yoe / 4 - yoe / 100)
  let mp := (5 * doy + 2) / 153
  let d := doy - (153 * mp + 2) / 5 + 1
  let m := if mp < 10 then mp + 3 else mp - 9
  (if m ≤ 2 then y + 1 else y, m, d)

/-- The day number (days since the epoch) of an instant:
`datetime.date()` / the date part used by `replace`. -/
def dayOf (t : Int) : Int := t / 86400

/-- Midnight of the day of `t`:
`t.replace(hour=0, minute=0, second=0, microsecond=0)`. -/
def midnight (t : Int) : Int := 86400 * (t / 86400)

/-- `t.replace(hour=h, minute=m, second=0, microsecond=0)` for valid `h`, `m`. -/
def replace_hm (t : Int) (h m : Nat) : Int := midnight t + 3600 * h + 60 * m

/-- Python's `t.weekday()`: Monday = 0 … Sunday = 6
(1970-01-01 was a Thursday, weekday 3). -/
def weekday (t : Int) : Int := (t / 86400 + 3) % 7

/-! ### Character-list string primitives

Python string operations are modelled on `List Char` with structural
recursion (so that concrete instances evaluate inside the kernel);
`String.data` bridges from string literals. -/

/-- Python's `s.split(sep)` for a one-character separator. -/
def splitChar (sep : Char) : List Char → List (List Char)
  | [] => [[]]
  | c :: rest =>
    let r := splitChar sep rest
    if c = sep then [] :: r
    else
      match r with
      | [] => [[c]]
      | g :: gs => (c :: g) :: gs

/-- Python's `int(s)` on a plain decimal-digit string (`none` models the
`ValueError` on anything else). -/
def digits? (l : List Char) : Option Nat :=
  if l = [] then none
  else
    l.foldl
      (fun acc c =>
        match acc with
        | none => none
        | some n => if c.isDigit then some (n * 10 + (c.toNat - 48)) else none)
      (some 0)

/-- `p` is a leading segment of `s` — Python's `s.startswith(p)`. -/
def isLeadOf : List Char → List Char → Bool
  | [], _ => true
  | _ :: _, [] => false
  | p :: ps, c :: cs => p = c && isLeadOf ps cs

/-- `pat` occurs as a contiguous run in `s` — Python's `pat in s`. -/
def occursIn (pat : List Char) : List Char → Bool
  | [] => pat.isEmpty
  | c :: rest => isLeadOf pat (c :: rest) || occursIn pat rest

/-- Python's `s.upper()` (the SQL text involved is ASCII). -/
def pyUpper (l : List Char) : List Char := l.map Char.toUpper

/-- Python's `s.lower()`. -/
def pyLower (l : List Char) : List Char := l.map Char.toLower

/-- Python's `s.strip()` with the default whitespace set. -/
def pyStrip (l : List Char) : List Char :=
  ((l.dropWhile Char.isWhitespace).reverse.dropWhile Char.isWhitespace).reverse

/-- Parse `"HH:MM"` as in `hour, minute = map(int, time_str.split(':'))`
followed by `datetime.replace(hour=hour, minute=minute)`.  Both a
non-numeric / wrongly-shaped string (`ValueError` from `int` or unpacking)
and an out-of-range hour or minute (`ValueError` from `replace`) land in the
same `except` branch of the source, so both are folded into `none` here. -/
def parse_time_hm (s : String) : Option (Nat × Nat) :=
  match splitChar ':' s.data with
  | [hs, ms] =>
    match digits? hs, digits? ms with
    | some h, some m => if h ≤ 23 ∧ m ≤ 59 then some (h, m) else none
    | _, _ => none
  | _ => none

/-- Parse `"YYYY-MM-DD"` as `datetime.strptime(s, '%Y-%m-%d')`, returning the
day number of the date at midnight; `none` models the `ValueError` of
`strptime` on a malformed or invalid date. -/
def parse_date_ymd (s : String) : Option Int :=
  match splitChar '-' s.data with
  | [ys, ms, ds] =>
    match digits? ys, digits? ms, digits? ds with
    | some y, some mo, some d =>
      if 1 ≤ mo ∧ mo ≤ 12 ∧ 1 ≤ d ∧ (d : Int) ≤ daysInMonth y mo then
        some (days_from_civil y mo d)
      else none
    | _, _, _ => none
  | _ => none

/-! ## The Schedule recurrence calculator (src/app/models/schedule.py) -/

/-- `ScheduleFrequency` enumeration.  The `frequency` column is a
`db.Enum(ScheduleFrequency)`, so exactly these five values occur. -/
inductive ScheduleFrequency where
  | daily | weekly | monthly | hourly | interval
  deriving DecidableEq, Repr

/-- The fields of the JSON `schedule_config` read by
`calculate_next_execution` (`config.get(…)`), each `none` when the key is
absent.  `interval_minutes` is `some none` when the key holds a value that
`int()` cannot convert (the inner `try` of the interval branch). -/
structure ScheduleConfig where
  time : Option String := none
  start_date : Option String := none
  days : Option (List String) := none
  day : Option Int := none
  interval_minutes : Option (Option Int) := none
  deriving Repr

/-- The interval branch's effective interval:
`int(interval_minutes)` with 15 on conversion failure, absence, or a value
≤ 0. -/
def effective_interval (x : Option (Option Int)) : Int :=
  match x with
  | none => 15
  | some none => 15
  | some (some v) => if v ≤ 0 then 15 else v

/-- The anchor computed identically by the interval branch (`first_run`) and
the daily branch (`next_run` before the one-day bump): `start_date` at
`HH:MM` when a `start_date` is configured (failing like `strptime` on a bad
date), otherwise today (`now`) at `HH:MM`. -/
def configured_anchor (sd : Option String) (now : Int) (h m : Nat) : Option Int :=
  match sd with
  | some s => (parse_date_ymd s).map (fun d => 86400 * d + 3600 * h + 60 * m)
  | none => some (replace_hm now h m)

/-- `day_map` of the weekly branch: day names to Python weekday numbers. -/
def day_map (s : String) : Option Nat :=
  if s = "Monday" then some 0
  else if s = "Tuesday" then some 1
  else if s = "Wednesday" then some 2
  else if s = "Thursday" then some 3
  else if s = "Friday" then some 4
  else if s = "Saturday" then some 5
  else if s = "Sunday" then some 6
  else none

/-- `target_weekdays` of the weekly branch: valid day names mapped through
`day_map`, defaulting to `[0]` (Monday) when none are valid. -/
def weekly_targets (days : List String) : List Nat :=
  let t := days.filterMap day_map
  if t = [] then [0] else t

/-- Minimum of a nonempty list, as computed by the weekly branch's running
minimum over `sorted(target_weekdays)` (`days_ahead = None; for …: if
days_ahead is None or days_until < days_ahead: days_ahead = days_until`).
Sorting does not change the minimum, so the iteration is modelled unsorted. -/
def listMin (x : Int) (xs : List Int) : Int := xs.foldl min x

/-- The adjusted `days_until` of the weekly branch for target weekday `w`:
`(w - current) % 7`, bumped to 7 when it is 0 and today's candidate time has
already passed. -/
def weekly_adj (now : Int) (candidate : Int) (w : Nat) : Int :=
  let du := ((w : Int) - weekday now) % 7
  if du = 0 ∧ candidate ≤ now then 7 else du

/-- `Schedule.calculate_next_execution` (src/app/models/schedule.py,
lines 161–308), for a schedule with the given activity flag, frequency and
parsed JSON config, evaluated at instant `now` (`datetime.utcnow()`).

Every `except (ValueError, AttributeError)` branch of the source is realised
by the `none` case of the corresponding parse; see `parse_time_hm`,
`parse_date_ymd` and the monthly `replace` validity checks. -/
def calculate_next_execution (is_active : Bool) (frequency : ScheduleFrequency)
    (config : ScheduleConfig) (now : Int) : Option Int :=
  if !is_active then none
  else
    match frequency with
    | .hourly =>
      -- now.replace(minute=0, second=0, microsecond=0) + timedelta(hours=1)
      some (3600 * (now / 3600) + 3600)
    | .interval =>
      let iv := effective_interval config.interval_minutes
      let tstr := (config.time).getD "09:00"
      let firstRun : Option Int := do
        let (h, m) ← parse_time_hm tstr
        configured_anchor config.start_date now h m
      match firstRun with
      | some fr =>
        if fr ≤ now then
          -- intervals_passed = (now - first_run).total_seconds() // (interval_minutes * 60)
          some (fr + 60 * iv * ((now - fr) / (60 * iv) + 1))
        else some fr
      | none =>
        -- fallback: now + timedelta(minutes=interval_minutes)
        some (now + 60 * iv)
    | .daily =>
      let tstr := (config.time).getD "00:00"
      let nextRun : Option Int := do
        let (h, m) ← parse_time_hm tstr
        configured_anchor config.start_date now h m
      match nextRun with
      | some nr => some (if nr ≤ now then nr + 86400 else nr)
      | none =>
        -- fallback: now.replace(hour=0, …) + timedelta(days=1)
        some (midnight now + 86400)
    | .weekly =>
      let tstr := (config.time).getD "00:00"
      let daysList := (config.days).getD ["Monday"]
      match parse_time_hm tstr with
      | some (h, m) =>
        let targets := weekly_targets daysList
        let candidate := replace_hm now h m
        let adjusted := targets.map (weekly_adj now candidate)
        match adjusted with
        | [] => none  -- unreachable: weekly_targets is never empty
        | a :: rest => some (candidate + 86400 * listMin a rest)
      | none =>
        -- fallback: next Monday at midnight (today pushed a full week)
        let da := (0 - weekday now) % 7
        let da := if da = 0 then 7 else da
        some (midnight now + 86400 * da)
    | .monthly =>
      let tstr := (config.time).getD "00:00"
      let targetDay := (config.day).getD 1
      let nextRun : Option Int := do
        let (h, m) ← parse_time_hm tstr
        -- now.replace(day=target_day, hour=…, minute=…): ValueError when
        -- target_day is not a valid day of now's month
        let (y, mo, _) := civil_from_days (dayOf now)
        if 1 ≤ targetDay ∧ targetDay ≤ daysInMonth y mo then
          let nr := 86400 * days_from_civil y mo targetDay + 3600 * h + 60 * m
          if nr ≤ now then
            if mo = 12 then
              some (86400 * days_from_civil (y + 1) 1 targetDay + 3600 * h + 60 * m)
            else
              -- next_run.replace(month=now.month + 1): ValueError when
              -- target_day does not exist in the next month
              if targetDay ≤ daysInMonth y (mo + 1) then
                some (86400 * days_from_civil y (mo + 1) targetDay + 3600 * h + 60 * m)
              else none
          else some nr
        else none
      match nextRun with
      | some nr => some nr
      | none =>
        -- fallback: first of next month at midnight
        let (y, mo, _) := civil_from_days (dayOf now)
        if mo = 12 then some (86400 * days_from_civil (y + 1) 1 1)
        else some (86400 * days_from_civil y (mo + 1) 1)

/-! ## The Execution ledger (src/app/models/execution.py)

An `Execution` row, with the state-transition methods of the model and the
failure branch of `ScriptExecutor._execute_script_thread`.  Timestamps are
integer seconds; `duration_seconds` is their difference. -/

/-- `ExecutionStatus` enumeration. -/
inductive ExecutionStatus where
  | pending | running | completed | failed | timeout | cancelled
  deriving DecidableEq, Repr

/-- `Execution.is_finished`: the four terminal statuses. -/
def is_finished (s : ExecutionStatus) : Bool :=
  s = .completed ∨ s = .failed ∨ s = .timeout ∨ s = .cancelled

/-- The columns of an `Execution` row that the transition methods touch. -/
structure ExecutionRecord where
  status : ExecutionStatus
  started_at : Option Int
  completed_at : Option Int
  exit_code : Option Int
  stdout : Option String
  stderr : Option String
  duration_seconds : Option Int
  pid : Option Int
  deriving DecidableEq, Repr

/-- A freshly inserted `Execution`: `status` defaults to `pending` and
`started_at` to `datetime.utcnow()` (both column defaults, applied when
`execute_script` commits the new record); everything else is NULL. -/
def initExecution (t0 : Int) : ExecutionRecord :=
  { status := .pending, started_at := some t0, completed_at := none,
    exit_code := none, stdout := none, stderr := none,
    duration_seconds := none, pid := none }

/-- `if self.started_at: self.duration_seconds = (self.completed_at -
self.started_at).total_seconds()` — shared by every terminal transition,
with `now` the value just written to `completed_at`. -/
def set_duration (now : Int) (e : ExecutionRecord) : ExecutionRecord :=
  match e.started_at with
  | some st => { e with duration_seconds := some (now - st) }
  | none => e

/-- `Execution.start_execution`. -/
def start_execution (now : Int) (pid : Option Int) (e : ExecutionRecord) :
    ExecutionRecord :=
  { e with status := .running, started_at := some now, pid := pid }

/-- `Execution.complete_execution`. -/
def complete_execution (now exit_code : Int) (out err : String)
    (e : ExecutionRecord) : ExecutionRecord :=
  set_duration now
    { e with completed_at := some now, exit_code := some exit_code,
             stdout := some out, stderr := some err,
             status := if exit_code = 0 then .completed else .failed }

/-- `Execution.timeout_execution`. -/
def timeout_execution (now : Int) (e : ExecutionRecord) : ExecutionRecord :=
  set_duration now
    { e with completed_at := some now, status := .timeout, exit_code := some (-1) }

/-- `Execution.cancel_execution` — note: no guard, the overwrite is
unconditional. -/
def cancel_execution (now : Int) (e : ExecutionRecord) : ExecutionRecord :=
  set_duration now
    { e with completed_at := some now, status := .cancelled, exit_code := some (-2) }

/-- The `except` branch of `ScriptExecutor._execute_script_thread`
(src/app/services/script_executor.py lines 140–150): spawn failure or crash. -/
def fail_execution_branch (now : Int) (msg : String) (e : ExecutionRecord) :
    ExecutionRecord :=
  set_duration now
    { e with status := .failed, completed_at := some now,
             stderr := some msg, exit_code := some (-1) }

/-- `ScriptExecutor.cancel_execution` (src/app/services/script_executor.py
lines 158–195): returns `False` without touching the record unless the
record `is_running` (status `running`); `tracked` says whether some pid in
`running_processes` maps to this execution (both the kill and the
process-already-dead branch end in `Execution.cancel_execution`). -/
def script_executor_cancel (now : Int) (tracked : Bool) (e : ExecutionRecord) :
    Bool × ExecutionRecord :=
  if e.status ≠ .running then (false, e)
  else if tracked then (true, cancel_execution now e)
  else (false, e)

/-- `stop_execution_api` (src/scriptflow.py lines 455–479): rejects with
`success: False` unless the status is `pending` or `running`; otherwise
cancels in place (appending to `stderr`, setting `duration_seconds` to 0
when `started_at` is unset, leaving `exit_code` and `stdout` alone). -/
def stop_execution_api (now : Int) (e : ExecutionRecord) : Bool × ExecutionRecord :=
  if e.status = .pending ∨ e.status = .running then
    (true,
      { e with status := .cancelled, completed_at := some now,
               stderr := some ((e.stderr.getD "") ++
                 "\n[CANCELLED] Execution was stopped by user"),
               duration_seconds := some (match e.started_at with
                 | some st => now - st
                 | none => 0) })
  else (false, e)

/-- States reachable from a fresh `pending` record by the five transition
operations, applied with arbitrary arguments and in any order. -/
inductive ReachableExecution : ExecutionRecord → Prop where
  | init (t0 : Int) : ReachableExecution (initExecution t0)
  | start (e : ExecutionRecord) (now : Int) (pid : Option Int) :
      ReachableExecution e → ReachableExecution (start_execution now pid e)
  | complete (e : ExecutionRecord) (now exit_code : Int) (out err : String) :
      ReachableExecution e → ReachableExecution (complete_execution now exit_code out err e)
  | timeout (e : ExecutionRecord) (now : Int) :
      ReachableExecution e → ReachableExecution (timeout_execution now e)
  | cancel (e : ExecutionRecord) (now : Int) :
      ReachableExecution e → ReachableExecution (cancel_execution now e)
  | failBranch (e : ExecutionRecord) (now : Int) (msg : String) :
      ReachableExecution e → ReachableExecution (fail_execution_branch now msg e)

/-- Like `ReachableExecution`, but `start_execution` is only applied to a
record still in `pending` or `running` — the way
`ScriptExecutor._execute_script_thread` actually invokes it (once, right
after spawning, before any terminal transition of that supervision). -/
inductive GuardedReachableExecution : ExecutionRecord → Prop where
  | init (t0 : Int) : GuardedReachableExecution (initExecution t0)
  | start (e : ExecutionRecord) (now : Int) (pid : Option Int) :
      e.status = .pending ∨ e.status = .running →
      GuardedReachableExecution e → GuardedReachableExecution (start_execution now pid e)
  | complete (e : ExecutionRecord) (now exit_code : Int) (out err : String) :
      GuardedReachableExecution e →
      GuardedReachableExecution (complete_execution now exit_code out err e)
  | timeout (e : ExecutionRecord) (now : Int) :
      GuardedReachableExecution e → GuardedReachableExecution (timeout_execution now e)
  | cancel (e : ExecutionRecord) (now : Int) :
      GuardedReachableExecution e → GuardedReachableExecution (cancel_execution now e)
  | failBranch (e : ExecutionRecord) (now : Int) (msg : String) :
      GuardedReachableExecution e →
      GuardedReachableExecution (fail_execution_branch now msg e)

/-- The spec's ledger invariant: `completed_at` and `duration_seconds` are
set if and only if the status is terminal. -/
def execution_invariant (e : ExecutionRecord) : Prop :=
  (e.completed_at.isSome && e.duration_seconds.isSome) = is_finished e.status

instance (e : ExecutionRecord) : Decidable (execution_invariant e) := by
  unfold execution_invariant; infer_instance

/-! ## Concurrency admission (src/app/services/script_executor.py)

`ScriptExecutor.execute_script` rejects synchronously when
`len(self.running_processes) >= self.max_concurrent`, before any record is
created.  Admission itself does not touch `running_processes`: the
supervising thread registers the pid only after `subprocess.Popen`
(line 112), so the tracked count lags behind admissions.
`register_process` models that registration as a separate step, and the
two submission drivers below realise the two extreme interleavings:
registration landing before the next submission, and a burst of
submissions arriving before any registration. -/

/-- Executor bookkeeping: the size of `running_processes` and the number of
`Execution` records added to the session so far. -/
structure ExecutorState where
  running_processes : Nat
  executions_created : Nat
  deriving DecidableEq, Repr

/-- The capacity-rejection message of `execute_script`. -/
def max_concurrent_message (n : Nat) : String :=
  "Maximum concurrent executions (" ++ toString n ++ ") reached"

/-- `ScriptExecutor.execute_script` (lines 25–69), as an admission step:
capacity check against the current `running_processes` first, then the
script lookups, and only then the creation of the `Execution` record and
the spawn.  The admitted job's process is not yet registered — that is the
spawned thread's doing. -/
def execute_script (max_concurrent : Nat) (scriptExists fileExists : Bool)
    (st : ExecutorState) : Except String ExecutorState :=
  if st.running_processes ≥ max_concurrent then
    .error (max_concurrent_message max_concurrent)
  else if !scriptExists then .error "Script not found"
  else if !fileExists then .error "Script file not found on disk"
  else .ok { st with executions_created := st.executions_created + 1 }

/-- The supervising thread's registration
`self.running_processes[process.pid] = execution_id` (line 112), performed
only after the process has been spawned. -/
def register_process (st : ExecutorState) : ExecutorState :=
  { st with running_processes := st.running_processes + 1 }

/-- `k` back-to-back submissions of an existing, on-disk script in which
each admitted job's supervising thread registers its process before the
next submission arrives. -/
def submit_register_many (max_concurrent k : Nat) (st : ExecutorState) (adm rej : Nat) :
    ExecutorState × Nat × Nat :=
  match k with
  | 0 => (st, adm, rej)
  | k + 1 =>
    match execute_script max_concurrent true true st with
    | .ok st' => submit_register_many max_concurrent k (register_process st') (adm + 1) rej
    | .error _ => submit_register_many max_concurrent k st adm (rej + 1)

/-- `k` back-to-back submissions of an existing, on-disk script that all
arrive before any supervising thread has registered its process. -/
def submit_burst (max_concurrent k : Nat) (st : ExecutorState) (adm rej : Nat) :
    ExecutorState × Nat × Nat :=
  match k with
  | 0 => (st, adm, rej)
  | k + 1 =>
    match execute_script max_concurrent true true st with
    | .ok st' => submit_burst max_concurrent k st' (adm + 1) rej
    | .error _ => submit_burst max_concurrent k st adm (rej + 1)

/-! ## Query validation (src/app/services/connection_manager.py 174–221) -/

/-- The extract-phase denylist. -/
def extract_dangerous_ops : List String :=
  ["DROP", "DELETE", "INSERT", "UPDATE", "CREATE", "ALTER", "TRUNCATE", "EXECUTE"]

/-- The load-phase allowlist of leading keywords. -/
def load_valid_starts : List String := ["INSERT", "UPDATE", "MERGE", "UPSERT"]

/-- The load-phase denylist. -/
def load_dangerous_ops : List String :=
  ["DROP", "CREATE", "ALTER", "TRUNCATE", "EXECUTE"]

/-- The injection-pattern list. -/
def injection_patterns : List String := ["--", "/*", "*/", ";--", "xp_", "sp_"]

/-- `ConnectionManager.validate_query(query, query_type)`:
`(is_valid, error_messages)`.  `query_upper = query.strip().upper()`; the
denylists are matched as raw substrings of it, the injection patterns as
raw substrings of `query.lower()` (un-stripped), exactly as in the source. -/
def validate_query (query : String) (query_type : String) : Bool × List String :=
  let query_upper := pyUpper (pyStrip query.data)
  if pyStrip query.data = [] then (false, ["Query cannot be empty"])
  else
    let phase_errors :=
      if query_type = "extract" then
        (if !isLeadOf "SELECT".data query_upper then
            ["Extract queries must start with SELECT"] else []) ++
        ((extract_dangerous_ops.filter (fun op => occursIn op.data query_upper)).map
          (fun op => "Extract queries cannot contain " ++ op ++ " operations"))
      else if query_type = "load" then
        (if !(load_valid_starts.any (fun op => isLeadOf op.data query_upper)) then
            ["Load queries must start with INSERT, UPDATE, MERGE, or UPSERT"] else []) ++
        ((load_dangerous_ops.filter (fun op => occursIn op.data query_upper)).map
          (fun op => "Load queries cannot contain " ++ op ++ " operations"))
      else []
    let injection_errors :=
      (injection_patterns.filter (fun p => occursIn p.data (pyLower query.data))).map
        (fun p => "Query contains potentially unsafe pattern: " ++ p)
    let errors := phase_errors ++ injection_errors
    (errors.isEmpty, errors)

/-! ## ETL Load phase (src/app/services/etl_executor.py)

The per-record load outcome is an oracle `f : α → Option Int`: `some n`
means `connection_manager.execute_query` returned `n` affected rows for
that record, `none` that it raised (the record is skipped and counted
towards the shortfall).  `_execute_load_phase` walks the rows in batches of
100; `_execute_integration_thread` then records
`records_failed = max(0, records_extracted - records_loaded)`. -/

/-- The fixed `batch_size = 100` of `_execute_load_phase`. -/
def etl_batch_size : Nat := 100

/-- The batches of `_execute_load_phase`:
`total_batches = (len(data) + batch_size - 1) // batch_size`, batch `j` is
`data[j*batch_size : min((j+1)*batch_size, len(data))]`. -/
def etl_batches (data : List α) : List (List α) :=
  (List.range ((data.length + etl_batch_size - 1) / etl_batch_size)).map
    (fun j => (data.drop (j * etl_batch_size)).take etl_batch_size)

/-- `ETLExecutor._load_data_batch` (lines 380–406): per-record load,
accumulating affected rows and continuing past individual failures. -/
def load_data_batch (f : α → Option Int) (batch : List α) : Int :=
  batch.foldl (fun acc r => match f r with | some n => acc + n | none => acc) 0

/-- `ETLExecutor._execute_load_phase` (lines 306–378): returns
`loaded_count`.  (`_load_data_batch` cannot raise in this model, so the
batch-level `except` that would add a whole batch to the local
`failed_count` is never taken.) -/
def execute_load_phase (f : α → Option Int) (data : List α) : Int :=
  if data.isEmpty then 0
  else (etl_batches data).foldl (fun acc b => acc + load_data_batch f b) 0

/-- The counters recorded by `_execute_integration_thread` on successful
completion (lines 120–126): `(records_loaded, records_failed)` with
`records_failed = max(0, records_extracted - records_loaded)`. -/
def recorded_counters (records_extracted : Nat) (loaded : Int) : Int × Int :=
  (loaded, max 0 ((records_extracted : Int) - loaded))

/-! ## Helper lemmas -/

/-- A time string accepted by `parse_time_hm` yields a valid hour/minute. -/
lemma parse_time_hm_bounds (s : String) (h mn : Nat)
    (hp : parse_time_hm s = some (h, mn)) : h ≤ 23 ∧ mn ≤ 59 := by
  unfold parse_time_hm at hp
  split at hp
  · split at hp
    · split at hp
      · rename_i hcond
        obtain ⟨rfl, rfl⟩ : _ ∧ _ := by simpa using hp
        exact hcond
      · simp at hp
    · simp at hp
  · simp at hp

/-- `effective_interval` of an explicitly configured positive value. -/
lemma effective_interval_pos (iv : Int) (hpos : 0 < iv) :
    effective_interval (some (some iv)) = iv := by
  show (if iv ≤ 0 then 15 else iv) = iv
  rw [if_neg (by omega)]

/-! ## C3 — interval schedules -/

/-- C3: for an interval schedule with a configured interval `iv > 0` and a
parseable time, the next run is the anchor when the anchor is still in the
future, and otherwise `anchor + (floor((now - anchor) / iv) + 1) * iv`
minutes (divisions in seconds); with a 15-minute interval, time 09:00 and
now 09:37 the next run is 09:45; and a configured interval ≤ 0 is treated
as 15 minutes. -/
theorem interval_next_run_claim :
    (∀ (now : Int) (cfg : ScheduleConfig) (iv : Int) (h m : Nat) (a : Int),
      cfg.interval_minutes = some (some iv) → 0 < iv →
      parse_time_hm (cfg.time.getD "09:00") = some (h, m) →
      configured_anchor cfg.start_date now h m = some a →
      calculate_next_execution true .interval cfg now =
        some (if a ≤ now then a + ((now - a) / (60 * iv) + 1) * (60 * iv) else a))
    ∧ calculate_next_execution true .interval
        { time := some "09:00", interval_minutes := some (some (15 : Int)) } 34620 = some 35100
    ∧ (∀ (now : Int) (t sd : Option String) (ds : Option (List String))
        (dy : Option Int) (iv : Int), iv ≤ 0 →
        calculate_next_execution true .interval ⟨t, sd, ds, dy, some (some iv)⟩ now =
          calculate_next_execution true .interval ⟨t, sd, ds, dy, some (some 15)⟩ now) := by
  refine ⟨?_, by decide, ?_⟩
  · intro now cfg iv h m a hiv hpos ht ha
    simp only [calculate_next_execution, Bool.not_true, Bool.false_eq_true, if_false,
      hiv, effective_interval_pos iv hpos, ht, Option.bind_eq_bind, Option.some_bind, ha]
    split
    · exact congrArg some (by ring)
    · rfl
  · intro now t sd ds dy iv hiv
    have hsame : effective_interval (some (some iv)) = effective_interval (some (some 15)) := by
      show (if iv ≤ 0 then 15 else iv) = (if (15 : Int) ≤ 0 then 15 else 15)
      rw [if_pos hiv, if_neg (by omega)]
    simp only [calculate_next_execution, hsame]

/-- C3 witness: the general formula applied at the 09:37 example, and the
treated-as-15 clause applied at a configured interval of −5 minutes. -/
theorem interval_next_run_claim_witness :
    calculate_next_execution true .interval
        ⟨some "09:00", none, none, none, some (some 15)⟩ 34620 =
      some (if (32400 : Int) ≤ 34620 then
              32400 + (((34620 : Int) - 32400) / (60 * 15) + 1) * (60 * 15) else 32400)
    ∧ calculate_next_execution true .interval
          ⟨some "09:00", none, none, none, some (some (-5))⟩ 34620 =
        calculate_next_execution true .interval
          ⟨some "09:00", none, none, none, some (some 15)⟩ 34620 :=
  ⟨interval_next_run_claim.1 34620 ⟨some "09:00", none, none, none, some (some 15)⟩
      15 9 0 32400 rfl (by decide) (by decide) (by decide),
   interval_next_run_claim.2.2 34620 (some "09:00") none none none (-5) (by decide)⟩

/-! ## C4 — daily schedules -/

/-- C4 counterexample: with a `start_date` in the past the daily branch
anchors at `start_date` (not today) and adds a single day, so the result
lies years in the past instead of being today's occurrence.  At
now = 2025-01-02 08:00 UTC (day 20090) with start_date 2020-01-01 and time
09:00 the code returns 2020-01-02 09:00 (day 18263), not the claimed
2025-01-02 09:00. -/
theorem daily_start_date_counterexample :
    calculate_next_execution true .daily
        ⟨some "09:00", some "2020-01-01", none, none, none⟩ (20090 * 86400 + 28800) =
      some (18263 * 86400 + 32400)
    ∧ (18263 * 86400 + 32400 : Int) ≠ 20090 * 86400 + 32400 :=
  ⟨by decide, by decide⟩

/-- C4 (amended): the daily candidate is `start_date` at the configured time
whenever a start_date is configured — past or future — and today at that
time otherwise; if the candidate is ≤ now exactly one day is added (which
can leave the result in the past when the start_date is old).  At 08:00
with time 09:00 and no start_date the next run is 09:00 the same day; at
09:01 it is 09:00 the next day. -/
theorem daily_next_run_claim :
    (∀ (now : Int) (cfg : ScheduleConfig) (h m : Nat) (c : Int),
      parse_time_hm (cfg.time.getD "00:00") = some (h, m) →
      configured_anchor cfg.start_date now h m = some c →
      calculate_next_execution true .daily cfg now =
        some (if c ≤ now then c + 86400 else c))
    ∧ calculate_next_execution true .daily ⟨some "09:00", none, none, none, none⟩ 28800 =
        some 32400
    ∧ calculate_next_execution true .daily ⟨some "09:00", none, none, none, none⟩ 32460 =
        some 118800 := by
  refine ⟨?_, by decide, by decide⟩
  intro now cfg h m c ht hc
  simp only [calculate_next_execution, Bool.not_true, Bool.false_eq_true, if_false, ht,
    Option.bind_eq_bind, Option.some_bind, hc]

/-- C4 witness: the general daily formula applied at 08:00 with time 09:00. -/
theorem daily_next_run_claim_witness :
    calculate_next_execution true .daily ⟨some "09:00", none, none, none, none⟩ 28800 =
      some (if (32400 : Int) ≤ 28800 then 32400 + 86400 else 32400) :=
  daily_next_run_claim.1 28800 ⟨some "09:00", none, none, none, none⟩ 9 0 32400
    (by decide) (by decide)

/-! ## C8 — fallback on unparseable config -/

/-- C8 counterexample: a daily schedule with an unparseable time falls back
to tomorrow at midnight, not to tomorrow at 09:00. -/
theorem fallback_not_tomorrow_counterexample :
    calculate_next_execution true .daily ⟨some "bad", none, none, none, none⟩
        (20090 * 86400 + 28800) = some (20091 * 86400)
    ∧ (20091 * 86400 : Int) ≠ 20091 * 86400 + 32400 :=
  ⟨by decide, by decide⟩

/-- C8 (amended): an unparseable time config falls back to a
frequency-specific default, not to tomorrow at 09:00: daily → the next
midnight; interval → now plus the effective interval; weekly → the next
Monday at midnight, whatever the configured day set (a full week ahead when
run on a Monday); monthly → the first of the next month at midnight,
rolling December into January.  The frequency column is a five-value enum,
so an unknown frequency cannot occur. -/
theorem fallback_next_run_claim :
    ∀ (now : Int) (s : String) (sd : Option String) (d : Option (List String))
      (dy : Option Int) (iv0 : Option (Option Int)),
      parse_time_hm s = none →
      calculate_next_execution true .daily ⟨some s, sd, d, dy, iv0⟩ now =
        some (midnight now + 86400)
      ∧ calculate_next_execution true .interval ⟨some s, sd, d, dy, iv0⟩ now =
          some (now + 60 * effective_interval iv0)
      ∧ (∀ r : Int,
          calculate_next_execution true .weekly ⟨some s, sd, d, dy, iv0⟩ now = some r →
          r % 86400 = 0 ∧ weekday r = 0 ∧ now < r ∧ r ≤ now + 7 * 86400)
      ∧ (∀ y mo dd : Int, civil_from_days (dayOf now) = (y, mo, dd) →
          calculate_next_execution true .monthly ⟨some s, sd, d, dy, iv0⟩ now =
            some (86400 * days_from_civil (if mo = 12 then y + 1 else y)
                    (if mo = 12 then 1 else mo + 1) 1)) := by
  intro now s sd d dy iv0 hs
  refine ⟨?_, ?_, ?_, ?_⟩
  · simp only [calculate_next_execution, Bool.not_true, Bool.false_eq_true, if_false,
      Option.getD_some, hs, Option.bind_eq_bind, Option.none_bind]
  · simp only [calculate_next_execution, Bool.not_true, Bool.false_eq_true, if_false,
      Option.getD_some, hs, Option.bind_eq_bind, Option.none_bind]
  · intro r hr
    simp only [calculate_next_execution, Bool.not_true, Bool.false_eq_true, if_false,
      Option.getD_some, hs, Option.some.injEq, midnight, weekday] at hr
    simp only [weekday]
    split at hr <;> omega
  · intro y mo dd hciv
    simp only [calculate_next_execution, Bool.not_true, Bool.false_eq_true, if_false,
      Option.getD_some, hs, Option.bind_eq_bind, Option.none_bind, hciv]
    split_ifs <;> rfl

/-- C8 witness: the four fallbacks evaluated at now = 0 (a Thursday,
1970-01-01) with an unparseable time string. -/
theorem fallback_next_run_claim_witness :
    calculate_next_execution true .daily ⟨some "bad", none, none, none, none⟩ 0 =
      some (midnight 0 + 86400)
    ∧ calculate_next_execution true .interval
        ⟨some "bad", none, none, none, none⟩ 0 = some (0 + 60 * effective_interval none)
    ∧ ((345600 : Int) % 86400 = 0 ∧ weekday 345600 = 0 ∧ (0 : Int) < 345600
        ∧ (345600 : Int) ≤ 0 + 7 * 86400)
    ∧ calculate_next_execution true .monthly ⟨some "bad", none, none, none, none⟩ 0 =
      some (86400 * days_from_civil (if (1 : Int) = 12 then 1970 + 1 else 1970)
              (if (1 : Int) = 12 then 1 else 1 + 1) 1) := by
  have H := fallback_next_run_claim 0 "bad" none none none none (by decide)
  exact ⟨H.1, H.2.1, H.2.2.1 345600 (by decide), H.2.2.2 1970 1 1 (by decide)⟩

/-! ## C1 — terminal executions and cancellation -/

/-- C1 counterexample: the model-level `Execution.cancel_execution` has no
terminal-status guard — applied directly to a completed record it
overwrites the recorded status and exit code (status → cancelled,
exit_code → −2), so not every cancel/transition call leaves a terminal
record unchanged. -/
theorem terminal_cancel_counterexample :
    is_finished (complete_execution 20 0 "out" ""
        (start_execution 10 (some 1) (initExecution 0))).status = true
    ∧ cancel_execution 30 (complete_execution 20 0 "out" ""
        (start_execution 10 (some 1) (initExecution 0))) ≠
      complete_execution 20 0 "out" "" (start_execution 10 (some 1) (initExecution 0))
    ∧ (cancel_execution 30 (complete_execution 20 0 "out" ""
        (start_execution 10 (some 1) (initExecution 0)))).status = .cancelled
    ∧ (cancel_execution 30 (complete_execution 20 0 "out" ""
        (start_execution 10 (some 1) (initExecution 0)))).exit_code = some (-2)
    ∧ (complete_execution 20 0 "out" ""
        (start_execution 10 (some 1) (initExecution 0))).status = .completed
    ∧ (complete_execution 20 0 "out" ""
        (start_execution 10 (some 1) (initExecution 0))).exit_code = some 0 := by
  refine ⟨by decide, by decide, by decide, by decide, by decide, by decide⟩

/-- C1 (amended): the cancel entry points are guarded — on a record whose
status is already terminal, `ScriptExecutor.cancel_execution` returns
`False` and the stop API answers `success: False`, each leaving the record
(status, exit_code, stdout, stderr and all) unchanged; on a running record
the first cancel wins (the record becomes `cancelled`) and any second
cancel through either entry point reports failure and changes nothing.
Only the unguarded model method `Execution.cancel_execution`, called
directly, can overwrite a terminal record. -/
theorem terminal_cancel_guarded :
    (∀ (e : ExecutionRecord) (now : Int) (tracked : Bool),
      is_finished e.status = true →
      script_executor_cancel now tracked e = (false, e)
        ∧ stop_execution_api now e = (false, e))
    ∧ (∀ (e : ExecutionRecord) (now₁ now₂ : Int) (tracked : Bool),
      e.status = .running →
      (script_executor_cancel now₁ true e).1 = true
        ∧ (script_executor_cancel now₁ true e).2.status = .cancelled
        ∧ script_executor_cancel now₂ tracked (script_executor_cancel now₁ true e).2 =
            (false, (script_executor_cancel now₁ true e).2)
        ∧ stop_execution_api now₂ (script_executor_cancel now₁ true e).2 =
            (false, (script_executor_cancel now₁ true e).2)) := by
  constructor
  · intro e now tracked hterm
    cases hs : e.status <;> simp [hs, is_finished] at hterm <;>
      simp [script_executor_cancel, stop_execution_api, hs]
  · intro e now₁ now₂ tracked hrun
    have hc : (script_executor_cancel now₁ true e).2.status = .cancelled := by
      rcases hsa : e.started_at with _ | st <;>
        simp [script_executor_cancel, hrun, cancel_execution, set_duration, hsa]
    refine ⟨by simp [script_executor_cancel, hrun], hc, ?_, ?_⟩
    · generalize hx : (script_executor_cancel now₁ true e).2 = x at hc ⊢
      simp [script_executor_cancel, hc]
    · generalize hx : (script_executor_cancel now₁ true e).2 = x at hc ⊢
      simp [stop_execution_api, hc]

/-- C1 witness: the guards evaluated on a concrete completed record and a
concrete running record. -/
theorem terminal_cancel_guarded_witness :
    script_executor_cancel 30 true (complete_execution 20 0 "o" "" (initExecution 0)) =
      (false, complete_execution 20 0 "o" "" (initExecution 0))
    ∧ stop_execution_api 30 (complete_execution 20 0 "o" "" (initExecution 0)) =
      (false, complete_execution 20 0 "o" "" (initExecution 0))
    ∧ (script_executor_cancel 15 true (start_execution 10 none (initExecution 0))).1 =
      true :=
  ⟨(terminal_cancel_guarded.1 (complete_execution 20 0 "o" "" (initExecution 0)) 30 true
      (by decide)).1,
   (terminal_cancel_guarded.1 (complete_execution 20 0 "o" "" (initExecution 0)) 30 true
      (by decide)).2,
   (terminal_cancel_guarded.2 (start_execution 10 none (initExecution 0)) 15 0 true
      (by decide)).1⟩

/-! ## C9 — the completed_at/duration invariant -/

/-- C9 counterexample: `start_execution` does not clear `completed_at` or
`duration_seconds`, so applying it to a record already completed (a state
reachable by the listed operations) yields a `running` record whose
`completed_at` and `duration_seconds` are still set — the if-and-only-if
invariant fails on a reachable state. -/
theorem execution_invariant_counterexample :
    ReachableExecution
        (start_execution 30 none (complete_execution 20 0 "" "" (initExecution 0)))
    ∧ ¬ execution_invariant
        (start_execution 30 none (complete_execution 20 0 "" "" (initExecution 0))) :=
  ⟨.start _ 30 none (.complete _ 20 0 "" "" (.init 0)), by decide⟩

/-- Strengthened induction for C9: along guarded histories, `started_at` is
always set and `completed_at` and `duration_seconds` are each set exactly
when the status is terminal. -/
lemma guarded_execution_fields (e : ExecutionRecord)
    (h : GuardedReachableExecution e) :
    e.started_at.isSome = true
      ∧ e.completed_at.isSome = is_finished e.status
      ∧ e.duration_seconds.isSome = is_finished e.status := by
  induction h with
  | init t0 => exact ⟨rfl, rfl, rfl⟩
  | start e now pid hguard _ ih =>
    have hnt : is_finished e.status = false := by
      rcases hguard with h | h <;> rw [h] <;> rfl
    refine ⟨rfl, ?_, ?_⟩
    · show e.completed_at.isSome = is_finished .running
      rw [ih.2.1, hnt]; rfl
    · show e.duration_seconds.isSome = is_finished .running
      rw [ih.2.2, hnt]; rfl
  | complete e now exit_code out err _ ih =>
    rcases hst : e.started_at with _ | st
    · rw [hst] at ih; simp at ih
    · rcases eq_or_ne exit_code 0 with h0 | h0 <;>
        exact ⟨by simp [complete_execution, set_duration, hst],
          by simp [complete_execution, set_duration, hst, is_finished, h0],
          by simp [complete_execution, set_duration, hst, is_finished, h0]⟩
  | timeout e now _ ih =>
    rcases hst : e.started_at with _ | st
    · rw [hst] at ih; simp at ih
    · exact ⟨by simp [timeout_execution, set_duration, hst],
        by simp [timeout_execution, set_duration, hst, is_finished],
        by simp [timeout_execution, set_duration, hst, is_finished]⟩
  | cancel e now _ ih =>
    rcases hst : e.started_at with _ | st
    · rw [hst] at ih; simp at ih
    · exact ⟨by simp [cancel_execution, set_duration, hst],
        by simp [cancel_execution, set_duration, hst, is_finished],
        by simp [cancel_execution, set_duration, hst, is_finished]⟩
  | failBranch e now msg _ ih =>
    rcases hst : e.started_at with _ | st
    · rw [hst] at ih; simp at ih
    · exact ⟨by simp [fail_execution_branch, set_duration, hst],
        by simp [fail_execution_branch, set_duration, hst, is_finished],
        by simp [fail_execution_branch, set_duration, hst, is_finished]⟩

/-- C9 (amended): the invariant "`completed_at` and `duration_seconds` are
set iff the status is terminal" holds after every sequence of the five
transition operations in which `start_execution` is only applied to a
record still `pending` or `running` — which is how the executor invokes it.
(Applying `start_execution` to an already-terminal record would break the
invariant, as the counterexample shows.) -/
theorem execution_invariant_guarded :
    ∀ e : ExecutionRecord, GuardedReachableExecution e → execution_invariant e := by
  intro e h
  obtain ⟨_, h2, h3⟩ := guarded_execution_fields e h
  unfold execution_invariant
  rw [h2, h3]
  cases is_finished e.status <;> rfl

/-- C9 witness: the invariant instantiated on a concrete guarded history
(init → start → complete). -/
theorem execution_invariant_guarded_witness :
    execution_invariant (complete_execution 20 0 "" ""
      (start_execution 10 none (initExecution 0))) :=
  execution_invariant_guarded _
    (.complete _ 20 0 "" "" (.start _ 10 none (Or.inl rfl) (.init 0)))

/-! ## C6 — capacity admission -/

/-- Splitting a run of registration-interleaved submissions: while the
registered count is under capacity every submission is admitted, each
advancing the registered count, the created-record count and the admission
tally in lockstep. -/
lemma submit_register_add (N : Nat) :
    ∀ (k j : Nat) (st : ExecutorState) (adm rej : Nat),
      st.running_processes + k ≤ N →
      submit_register_many N (k + j) st adm rej =
        submit_register_many N j ⟨st.running_processes + k, st.executions_created + k⟩
          (adm + k) rej := by
  intro k
  induction k with
  | zero =>
    intro j st adm rej _
    rw [Nat.zero_add]
    rfl
  | succ k ih =>
    intro j st adm rej hcap
    have hstep : k + 1 + j = (k + j) + 1 := by omega
    rw [hstep]
    have hlt : ¬ st.running_processes ≥ N := by omega
    simp only [submit_register_many, execute_script, if_neg hlt, Bool.not_true,
      Bool.false_eq_true, if_false]
    rw [show register_process { st with executions_created := st.executions_created + 1 } =
      (⟨st.running_processes + 1, st.executions_created + 1⟩ : ExecutorState) from rfl]
    rw [ih j ⟨st.running_processes + 1, st.executions_created + 1⟩ (adm + 1) rej
      (by show st.running_processes + 1 + k ≤ N; omega)]
    have h1 : st.running_processes + 1 + k = st.running_processes + (k + 1) := by omega
    have h2 : st.executions_created + 1 + k = st.executions_created + (k + 1) := by omega
    have h3 : adm + 1 + k = adm + (k + 1) := by omega
    rw [h1, h2, h3]

/-- At capacity, every further registration-interleaved submission is
rejected: the state (and with it the set of created `Execution` records) is
untouched and only the rejection tally advances. -/
lemma submit_register_at_capacity (N : Nat) :
    ∀ (k : Nat) (st : ExecutorState) (adm rej : Nat),
      st.running_processes ≥ N →
      submit_register_many N k st adm rej = (st, adm, rej + k) := by
  intro k
  induction k with
  | zero => intro st adm rej _; simp [submit_register_many]
  | succ k ih =>
    intro st adm rej hcap
    simp only [submit_register_many, execute_script, if_pos hcap]
    rw [ih st adm (rej + 1) hcap]
    exact congrArg (fun x => (st, adm, x)) (by omega)

/-- At capacity, a burst submission is likewise rejected with the state
untouched. -/
lemma submit_burst_at_capacity (N : Nat) :
    ∀ (k : Nat) (st : ExecutorState) (adm rej : Nat),
      st.running_processes ≥ N →
      submit_burst N k st adm rej = (st, adm, rej + k) := by
  intro k
  induction k with
  | zero => intro st adm rej _; simp [submit_burst]
  | succ k ih =>
    intro st adm rej hcap
    simp only [submit_burst, execute_script, if_pos hcap]
    rw [ih st adm (rej + 1) hcap]
    exact congrArg (fun x => (st, adm, x)) (by omega)

/-- With no registration landing, the capacity check keeps observing the
same running count: below capacity, every burst submission is admitted,
however many there are. -/
lemma submit_burst_all_admitted (N : Nat) :
    ∀ (k : Nat) (st : ExecutorState) (adm rej : Nat),
      st.running_processes < N →
      submit_burst N k st adm rej =
        (⟨st.running_processes, st.executions_created + k⟩, adm + k, rej) := by
  intro k
  induction k with
  | zero => intro st adm rej _; rfl
  | succ k ih =>
    intro st adm rej hlt
    have h : ¬ st.running_processes ≥ N := by omega
    simp only [submit_burst, execute_script, if_neg h, Bool.not_true, Bool.false_eq_true,
      if_false]
    rw [show ({ st with executions_created := st.executions_created + 1 } : ExecutorState) =
      ⟨st.running_processes, st.executions_created + 1⟩ from rfl]
    rw [ih ⟨st.running_processes, st.executions_created + 1⟩ (adm + 1) rej
      (by show st.running_processes < N; omega)]
    have h2 : st.executions_created + 1 + k = st.executions_created + (k + 1) := by omega
    have h3 : adm + 1 + k = adm + (k + 1) := by omega
    rw [h2, h3]

/-- C6 counterexample: capacity 1, two back-to-back submissions arriving
before the admitted job's supervising thread has registered its process
(registration happens only after `Popen`, script_executor.py line 112): the
capacity check still observes zero running processes, so both submissions
are admitted and none is rejected — not the claimed one rejection and `N`
admissions. -/
theorem capacity_burst_counterexample :
    submit_burst 1 2 ⟨0, 0⟩ 0 0 = (⟨0, 2⟩, 2, 0)
    ∧ (submit_burst 1 2 ⟨0, 0⟩ 0 0).2 ≠ ((1 : Nat), (1 : Nat)) :=
  ⟨by decide, by decide⟩

/-- C6 (amended): a submission that observes the tracked running count at
capacity is rejected synchronously with the message
`Maximum concurrent executions (N) reached`, ahead of the script lookups
and of the creation of any `Execution` record (the `.error` branch leaves
the state, including the created-record count, untouched).  But admission
itself does not update the tracked count — the supervising thread registers
the pid only after spawning — so the `N + 1`-submissions property is a
scheduling fact, not a program guarantee: when each admitted job's
registration lands before the next submission, `N + 1` submissions against
an empty executor of capacity `N` yield exactly `N` admissions and one
rejection; when all `N + 1` submissions arrive before any registration,
every one of them is admitted and none is rejected. -/
theorem capacity_rejection_claim :
    (∀ (maxC : Nat) (st : ExecutorState) (se fe : Bool),
      st.running_processes ≥ maxC →
      execute_script maxC se fe st = .error (max_concurrent_message maxC))
    ∧ (∀ (maxC : Nat) (st : ExecutorState) (adm rej : Nat),
      st.running_processes ≥ maxC →
      submit_burst maxC 1 st adm rej = (st, adm, rej + 1))
    ∧ (∀ N : Nat, submit_register_many N (N + 1) ⟨0, 0⟩ 0 0 = (⟨N, N⟩, N, 1))
    ∧ (∀ N : Nat, 0 < N → submit_burst N (N + 1) ⟨0, 0⟩ 0 0 = (⟨0, N + 1⟩, N + 1, 0)) := by
  refine ⟨?_, ?_, ?_, ?_⟩
  · intro maxC st se fe hcap
    simp [execute_script, if_pos hcap]
  · intro maxC st adm rej hcap
    exact submit_burst_at_capacity maxC 1 st adm rej hcap
  · intro N
    rw [submit_register_add N N 1 ⟨0, 0⟩ 0 0 (by show 0 + N ≤ N; omega)]
    simp only [Nat.zero_add]
    exact submit_register_at_capacity N 1 ⟨N, N⟩ N 0 (by show N ≥ N; omega)
  · intro N hN
    rw [submit_burst_all_admitted N (N + 1) ⟨0, 0⟩ 0 0 (by show 0 < N; omega)]
    simp only [Nat.zero_add]

/-- C6 witness: the rejection evaluated at capacity 2 with 2 registered, the
3-submissions-with-registration scenario, and the 3-submission burst. -/
theorem capacity_rejection_claim_witness :
    execute_script 2 true true ⟨2, 2⟩ = .error (max_concurrent_message 2)
    ∧ submit_burst 2 1 ⟨2, 2⟩ 0 0 = (⟨2, 2⟩, 0, 1)
    ∧ submit_register_many 2 3 ⟨0, 0⟩ 0 0 = (⟨2, 2⟩, 2, 1)
    ∧ submit_burst 2 3 ⟨0, 0⟩ 0 0 = (⟨0, 3⟩, 3, 0) :=
  ⟨capacity_rejection_claim.1 2 ⟨2, 2⟩ true true (by decide),
   capacity_rejection_claim.2.1 2 ⟨2, 2⟩ 0 0 (by decide),
   capacity_rejection_claim.2.2.1 2,
   capacity_rejection_claim.2.2.2 2 (by decide)⟩

/-! ## C2 — ETL load batching and counters -/

/-- The accumulating fold of an integer-summing step factors over its start
value. -/
lemma foldl_add_acc {β : Type} (g : β → Int) :
    ∀ (l : List β) (acc : Int),
      l.foldl (fun a x => a + g x) acc = acc + l.foldl (fun a x => a + g x) 0 := by
  intro l
  induction l with
  | nil => intro acc; simp
  | cons x xs ih =>
    intro acc
    simp only [List.foldl_cons]
    rw [ih (acc + g x), ih (0 + g x)]
    ring

/-- The per-record load step adds the record's affected-row count (0 when
the record's load raises). -/
lemma load_data_batch_eq_sum {α : Type} (f : α → Option Int) (l : List α) :
    load_data_batch f l =
      l.foldl (fun a x => a + (match f x with | some n => n | none => 0)) 0 := by
  unfold load_data_batch
  congr 1
  funext a x
  cases f x <;> simp

/-- `_load_data_batch` over a concatenation is the sum of the two parts. -/
lemma load_data_batch_append {α : Type} (f : α → Option Int) (a b : List α) :
    load_data_batch f (a ++ b) = load_data_batch f a + load_data_batch f b := by
  rw [load_data_batch_eq_sum, load_data_batch_eq_sum, load_data_batch_eq_sum,
    List.foldl_append, foldl_add_acc]

/-- Number of batches. -/
lemma etl_batches_length {α : Type} (data : List α) :
    (etl_batches data).length = (data.length + 99) / 100 := by
  simp [etl_batches, etl_batch_size]

/-- Peeling the first batch off a nonempty data set. -/
lemma etl_batches_cons {α : Type} (data : List α) (hne : data ≠ []) :
    etl_batches data = data.take 100 :: etl_batches (data.drop 100) := by
  unfold etl_batches etl_batch_size
  have hlen : 0 < data.length := List.length_pos.mpr hne
  have hn : (data.length + 100 - 1) / 100 = ((data.drop 100).length + 100 - 1) / 100 + 1 := by
    rw [List.length_drop]
    omega
  rw [hn, List.range_succ_eq_map, List.map_cons, List.map_map]
  refine congrArg₂ List.cons (by simp) (List.map_congr_left ?_)
  intro a _
  simp only [Function.comp_apply, List.drop_drop]
  congr 2
  omega

/-- The batched fold of `_execute_load_phase` (including its empty-data
early return) equals the unbatched per-record fold over all rows. -/
lemma execute_load_phase_eq {α : Type} (f : α → Option Int) (data : List α) :
    execute_load_phase f data = load_data_batch f data := by
  have key : ∀ (n : Nat) (d : List α), d.length ≤ n →
      (etl_batches d).foldl (fun acc b => acc + load_data_batch f b) 0 =
        load_data_batch f d := by
    intro n
    induction n with
    | zero =>
      intro d hd
      have : d = [] := by
        cases d with
        | nil => rfl
        | cons a l => simp at hd
      subst this
      simp [etl_batches, etl_batch_size, load_data_batch]
    | succ n ih =>
      intro d hd
      by_cases hne : d = []
      · subst hne; simp [etl_batches, etl_batch_size, load_data_batch]
      · rw [etl_batches_cons d hne, List.foldl_cons, foldl_add_acc]
        rw [ih (d.drop 100) (by rw [List.length_drop]; have := List.length_pos.mpr hne; omega)]
        calc 0 + load_data_batch f (d.take 100) + load_data_batch f (d.drop 100)
            = load_data_batch f (d.take 100 ++ d.drop 100) := by
              rw [load_data_batch_append]; ring
          _ = load_data_batch f d := by rw [List.take_append_drop]
  unfold execute_load_phase
  split
  · rename_i hemp
    have : data = [] := by simpa [List.isEmpty_iff] using hemp
    subst this
    rfl
  · exact key data.length data le_rfl

/-- When every record's load reports at most one affected row, the total
loaded count is at most the number of rows. -/
lemma load_data_batch_le_length {α : Type} (f : α → Option Int) :
    ∀ (data : List α), (∀ r ∈ data, ∀ n, f r = some n → n ≤ 1) →
      load_data_batch f data ≤ data.length := by
  intro data
  induction data with
  | nil => intro _; simp [load_data_batch]
  | cons x xs ih =>
    intro hb
    have hx : (match f x with | some n => n | none => 0) ≤ 1 := by
      rcases hfx : f x with _ | n
      · simp
      · simpa using hb x (by simp) n hfx
    have hxs := ih (fun r hr n hn => hb r (by simp [hr]) n hn)
    rw [load_data_batch_eq_sum] at hxs ⊢
    simp only [List.foldl_cons, List.length_cons]
    rw [foldl_add_acc]
    push_cast
    omega

/-- C2 counterexample: a single extracted row whose load statement reports 2
affected rows (e.g. an UPDATE matching two target rows) makes the recorded
counters violate `records_loaded + records_failed = records_extracted`:
the code records loaded = 2, failed = max(0, 1−2) = 0, against 1 extracted
row. -/
theorem load_counters_counterexample :
    execute_load_phase (fun _ => some 2) [(0 : Int)] = 2
    ∧ recorded_counters ([(0 : Int)]).length
        (execute_load_phase (fun _ => some 2) [(0 : Int)]) = (2, 0)
    ∧ (recorded_counters ([(0 : Int)]).length
          (execute_load_phase (fun _ => some 2) [(0 : Int)])).1 +
        (recorded_counters ([(0 : Int)]).length
          (execute_load_phase (fun _ => some 2) [(0 : Int)])).2 ≠
        (([(0 : Int)]).length : Int) :=
  ⟨by decide, by decide, by decide⟩

/-- C2 (amended): the Load phase walks the rows in `ceil(R/100)` batches of
at most 100 rows each (250 rows → exactly 3 batches); the completion
records `records_failed = max(0, records_extracted − records_loaded)`, so
`records_loaded + records_failed = records_extracted` holds whenever every
record's load reports at most one affected row — as with the per-record
INSERT of the scenario — though not for multi-row statements (see the
counterexample). -/
theorem load_phase_batches_and_counters :
    (∀ (α : Type) (data : List α),
      (etl_batches data).length = (data.length + 99) / 100
        ∧ ∀ b ∈ etl_batches data, b.length ≤ 100)
    ∧ (etl_batches (List.range 250)).length = 3
    ∧ (∀ (α : Type) (f : α → Option Int) (data : List α),
        (∀ r ∈ data, ∀ n, f r = some n → n ≤ 1) →
        (recorded_counters data.length (execute_load_phase f data)).1 +
          (recorded_counters data.length (execute_load_phase f data)).2 =
          (data.length : Int)) := by
  refine ⟨?_, ?_, ?_⟩
  · intro α data
    refine ⟨etl_batches_length data, ?_⟩
    intro b hb
    obtain ⟨j, _, rfl⟩ := List.mem_map.mp hb
    calc ((data.drop (j * etl_batch_size)).take etl_batch_size).length
        ≤ etl_batch_size := by
          rw [List.length_take]
          exact min_le_left _ _
      _ = 100 := rfl
  · rw [etl_batches_length, List.length_range]
  · intro α f data hf
    have hle := load_data_batch_le_length f data hf
    rw [execute_load_phase_eq] at *
    unfold recorded_counters
    omega

/-- C2 witness: the counter identity applied to 3 rows whose loads report
1, 0 (raises) and 1 affected rows. -/
theorem load_phase_batches_and_counters_witness :
    (recorded_counters ([(1 : Int), 2, 3]).length
        (execute_load_phase (fun r => if r = 2 then none else some 1) [(1 : Int), 2, 3])).1 +
      (recorded_counters ([(1 : Int), 2, 3]).length
        (execute_load_phase (fun r => if r = 2 then none else some 1) [(1 : Int), 2, 3])).2 =
      (([(1 : Int), 2, 3]).length : Int) :=
  load_phase_batches_and_counters.2.2 Int (fun r => if r = 2 then none else some 1)
    [(1 : Int), 2, 3] (by decide)

/-! ## C7 / C10 — query validation -/

/-- `validate_query` reports valid exactly when its error list is empty. -/
lemma validate_fst_isEmpty (q t : String) :
    (validate_query q t).1 = ((validate_query q t).2).isEmpty := by
  unfold validate_query
  split <;> rfl

/-- Any member of the error list makes `validate_query` report invalid. -/
lemma validate_query_invalid_of_mem (q t x : String)
    (hx : x ∈ (validate_query q t).2) : (validate_query q t).1 = false := by
  rw [validate_fst_isEmpty]
  rcases h : (validate_query q t).2 with _ | ⟨a, l⟩
  · rw [h] at hx; simp at hx
  · rfl

/-- C7: `validate_query` rejects an extract query that does not start with
SELECT (on the stripped, upper-cased text) or that contains any of DROP,
DELETE, INSERT, UPDATE, CREATE, ALTER, TRUNCATE, EXECUTE as a substring;
rejects a load query that does not start with INSERT, UPDATE, MERGE or
UPSERT or that contains any of DROP, CREATE, ALTER, TRUNCATE, EXECUTE; and
rejects a query of any phase containing one of the lexical patterns `--`,
`/*`, `;--` in its lower-cased text. -/
theorem validate_query_policy_claim :
    ∀ q : String,
      (∀ op ∈ extract_dangerous_ops,
        occursIn op.data (pyUpper (pyStrip q.data)) = true →
        (validate_query q "extract").1 = false)
      ∧ (isLeadOf "SELECT".data (pyUpper (pyStrip q.data)) = false →
        (validate_query q "extract").1 = false)
      ∧ (∀ op ∈ load_dangerous_ops,
        occursIn op.data (pyUpper (pyStrip q.data)) = true →
        (validate_query q "load").1 = false)
      ∧ ((load_valid_starts.any (fun op => isLeadOf op.data (pyUpper (pyStrip q.data)))) =
          false →
        (validate_query q "load").1 = false)
      ∧ (∀ t : String, ∀ p ∈ (["--", "/*", ";--"] : List String),
        occursIn p.data (pyLower q.data) = true →
        (validate_query q t).1 = false) := by
  intro q
  refine ⟨?_, ?_, ?_, ?_, ?_⟩
  · intro op hop hc
    by_cases hq : pyStrip q.data = []
    · rw [hq] at hc
      rcases (by simpa [extract_dangerous_ops] using hop :
          op = "DROP" ∨ op = "DELETE" ∨ op = "INSERT" ∨ op = "UPDATE" ∨ op = "CREATE"
            ∨ op = "ALTER" ∨ op = "TRUNCATE" ∨ op = "EXECUTE")
        with rfl | rfl | rfl | rfl | rfl | rfl | rfl | rfl <;>
        exact absurd hc (by decide)
    · apply validate_query_invalid_of_mem q "extract"
        ("Extract queries cannot contain " ++ op ++ " operations")
      simp only [validate_query, if_neg hq]
      refine List.mem_append_left _ (List.mem_append_right _ ?_)
      exact List.mem_map_of_mem _ (List.mem_filter.mpr ⟨hop, hc⟩)
  · intro hsw
    by_cases hq : pyStrip q.data = []
    · simp [validate_query, hq]
    · apply validate_query_invalid_of_mem q "extract" "Extract queries must start with SELECT"
      simp only [validate_query, if_neg hq]
      refine List.mem_append_left _ (List.mem_append_left _ ?_)
      simp [hsw]
  · intro op hop hc
    by_cases hq : pyStrip q.data = []
    · rw [hq] at hc
      rcases (by simpa [load_dangerous_ops] using hop :
          op = "DROP" ∨ op = "CREATE" ∨ op = "ALTER" ∨ op = "TRUNCATE" ∨ op = "EXECUTE")
        with rfl | rfl | rfl | rfl | rfl <;>
        exact absurd hc (by decide)
    · apply validate_query_invalid_of_mem q "load"
        ("Load queries cannot contain " ++ op ++ " operations")
      simp only [validate_query, if_neg hq]
      refine List.mem_append_left _ (List.mem_append_right _ ?_)
      exact List.mem_map_of_mem _ (List.mem_filter.mpr ⟨hop, hc⟩)
  · intro hsw
    by_cases hq : pyStrip q.data = []
    · simp [validate_query, hq]
    · apply validate_query_invalid_of_mem q "load"
        "Load queries must start with INSERT, UPDATE, MERGE, or UPSERT"
      simp only [validate_query, if_neg hq]
      refine List.mem_append_left _ (List.mem_append_left _ ?_)
      simp [hsw]
  · intro t p hp hc
    by_cases hq : pyStrip q.data = []
    · simp [validate_query, hq]
    · apply validate_query_invalid_of_mem q t
        ("Query contains potentially unsafe pattern: " ++ p)
      simp only [validate_query, if_neg hq]
      refine List.mem_append_right _ ?_
      refine List.mem_map_of_mem _ (List.mem_filter.mpr ⟨?_, hc⟩)
      rcases (by simpa using hp : p = "--" ∨ p = "/*" ∨ p = ";--") with rfl | rfl | rfl <;>
        simp [injection_patterns]

/-- C7 witness: concrete rejections — an extract query containing DELETE, a
non-SELECT extract query, and an extract query containing a line comment. -/
theorem validate_query_policy_claim_witness :
    (validate_query "DELETE FROM t" "extract").1 = false
    ∧ (validate_query "foo" "extract").1 = false
    ∧ (validate_query "SELECT a FROM t -- note" "extract").1 = false :=
  ⟨(validate_query_policy_claim "DELETE FROM t").1 "DELETE" (by decide) (by decide),
   (validate_query_policy_claim "foo").2.1 (by decide),
   (validate_query_policy_claim "SELECT a FROM t -- note").2.2.2.2 "extract" "--"
      (by decide) (by decide)⟩

/-- C10: the denylist is matched as raw case-insensitive substrings of the
whole query text, not as SQL tokens — `SELECT updated_at FROM t` is a pure
SELECT (it does start with SELECT) yet is reported invalid for the extract
phase because its column name contains UPDATE; in general any extract query
whose upper-cased text contains UPDATE is rejected; and beyond the patterns
the spec lists, `*/`, `xp_` and `sp_` are each rejected in any phase. -/
theorem validate_query_substring_claim :
    ((validate_query "SELECT updated_at FROM t" "extract").1 = false
      ∧ isLeadOf "SELECT".data (pyUpper (pyStrip "SELECT updated_at FROM t".data)) = true
      ∧ occursIn "UPDATE".data (pyUpper (pyStrip "SELECT updated_at FROM t".data)) = true)
    ∧ (∀ q : String, occursIn "UPDATE".data (pyUpper (pyStrip q.data)) = true →
        (validate_query q "extract").1 = false)
    ∧ (∀ (q t : String), ∀ p ∈ (["*/", "xp_", "sp_"] : List String),
        occursIn p.data (pyLower q.data) = true →
        (validate_query q t).1 = false) := by
  refine ⟨⟨?_, by decide, by decide⟩, ?_, ?_⟩
  · exact (validate_query_policy_claim "SELECT updated_at FROM t").1 "UPDATE"
      (by decide) (by decide)
  · intro q hc
    exact (validate_query_policy_claim q).1 "UPDATE" (by decide) hc
  · intro q t p hp hc
    by_cases hq : pyStrip q.data = []
    · simp [validate_query, hq]
    · apply validate_query_invalid_of_mem q t
        ("Query contains potentially unsafe pattern: " ++ p)
      simp only [validate_query, if_neg hq]
      refine List.mem_append_right _ ?_
      refine List.mem_map_of_mem _ (List.mem_filter.mpr ⟨?_, hc⟩)
      rcases (by simpa using hp : p = "*/" ∨ p = "xp_" ∨ p = "sp_") with rfl | rfl | rfl <;>
        simp [injection_patterns]

/-- C10 witness: an extract query invalid only because a table name contains
UPDATE, and a query rejected for containing `sp_`. -/
theorem validate_query_substring_claim_witness :
    (validate_query "SELECT x FROM updates" "extract").1 = false
    ∧ (validate_query "SELECT a FROM t WHERE b = sp_val" "extract").1 = false :=
  ⟨validate_query_substring_claim.2.1 "SELECT x FROM updates" (by decide),
   validate_query_substring_claim.2.2 "SELECT a FROM t WHERE b = sp_val" "extract" "sp_"
      (by decide) (by decide)⟩

/-! ## C5 — weekly schedules -/

/-- `day_map` only produces weekday numbers 0–6. -/
lemma day_map_lt (s : String) (w : Nat) (h : day_map s = some w) : w < 7 := by
  unfold day_map at h
  split_ifs at h <;> simp_all <;> omega

/-- Every target weekday is in 0–6. -/
lemma weekly_targets_mem_lt (l : List String) (w : Nat)
    (h : w ∈ weekly_targets l) : w < 7 := by
  simp only [weekly_targets] at h
  split at h
  · simp at h; omega
  · obtain ⟨s, _, hs⟩ := List.mem_filterMap.mp h
    exact day_map_lt s w hs

/-- The target set is never empty (the empty/invalid case defaults to
Monday). -/
lemma weekly_targets_ne_nil (l : List String) : weekly_targets l ≠ [] := by
  simp only [weekly_targets]
  split
  · simp
  · assumption

/-- The running minimum of the weekly loop attains one of its inputs. -/
lemma listMin_mem (x : Int) (xs : List Int) : listMin x xs = x ∨ listMin x xs ∈ xs := by
  induction xs generalizing x with
  | nil => exact Or.inl rfl
  | cons y ys ih =>
    have : listMin x (y :: ys) = listMin (min x y) ys := rfl
    rw [this]
    rcases ih (min x y) with h | h
    · rcases min_choice x y with hm | hm
      · exact Or.inl (h.trans hm)
      · exact Or.inr (by simp [h.trans hm])
    · exact Or.inr (by simp [h])

/-- The running minimum of the weekly loop is a lower bound of its inputs. -/
lemma listMin_le (x : Int) (xs : List Int) :
    listMin x xs ≤ x ∧ ∀ y ∈ xs, listMin x xs ≤ y := by
  induction xs generalizing x with
  | nil => exact ⟨le_refl x, by simp⟩
  | cons y ys ih =>
    have hrw : listMin x (y :: ys) = listMin (min x y) ys := rfl
    obtain ⟨h1, h2⟩ := ih (min x y)
    refine ⟨hrw ▸ (h1.trans (min_le_left x y)), ?_⟩
    intro z hz
    rw [hrw]
    rcases List.mem_cons.mp hz with rfl | hz'
    · exact h1.trans (min_le_right x z)
    · exact h2 z hz'

/-- The first occurrence property of the weekly loop's adjusted day offset:
for a target weekday `w`, `candidate + 86400 * weekly_adj now candidate w`
is the earliest instant strictly after `now` that falls on weekday `w` at
the configured time of day. -/
lemma weekly_adj_spec (now : Int) (h mn : Nat) (hh : h ≤ 23) (hm : mn ≤ 59)
    (w : Nat) (hw : w < 7) :
    now < replace_hm now h mn + 86400 * weekly_adj now (replace_hm now h mn) w
    ∧ (replace_hm now h mn + 86400 * weekly_adj now (replace_hm now h mn) w) % 86400 =
        3600 * h + 60 * mn
    ∧ weekday (replace_hm now h mn + 86400 * weekly_adj now (replace_hm now h mn) w) = w
    ∧ ∀ t : Int, now < t → t % 86400 = 3600 * h + 60 * mn → weekday t = w →
        replace_hm now h mn + 86400 * weekly_adj now (replace_hm now h mn) w ≤ t := by
  simp only [weekly_adj, replace_hm, midnight, weekday]
  split <;>
    refine ⟨by omega, by omega, by omega, ?_⟩ <;>
    · intro t ht1 ht2 ht3
      omega

/-- C5 counterexample: the weekly branch ignores any configured
`start_date` floor — with days [Monday], time 10:00, start_date 2030-01-01
and now a Tuesday of 2025 (day 20095 12:00), the computed next run is
Monday 2025-01-13 (day 20101), whose date lies before the 2030 floor
(day 21915) rather than being advanced past it. -/
theorem weekly_start_date_counterexample :
    calculate_next_execution true .weekly
        ⟨some "10:00", some "2030-01-01", some ["Monday"], none, none⟩
        (20095 * 86400 + 43200) = some (20101 * 86400 + 36000)
    ∧ parse_date_ymd "2030-01-01" = some 21915
    ∧ dayOf (20101 * 86400 + 36000) < 21915 :=
  ⟨by decide, by decide, by decide⟩

/-- C5 (amended): for a weekly schedule with a parseable time, the next run
is the earliest instant strictly after now that falls on one of the
configured target weekdays at the configured time, wrapping to the next
week when needed; an empty or invalid weekday list defaults to Monday; any
configured `start_date` is ignored (there is no 7-day advancement to a
floor, see the counterexample); and days [Monday] at 10:00 computed on a
Tuesday yields the following Monday at 10:00. -/
theorem weekly_next_run_claim :
    (∀ (now : Int) (cfg : ScheduleConfig) (h mn : Nat) (r : Int),
      parse_time_hm (cfg.time.getD "00:00") = some (h, mn) →
      calculate_next_execution true .weekly cfg now = some r →
      now < r ∧ r % 86400 = 3600 * h + 60 * mn
        ∧ (∃ w ∈ weekly_targets (cfg.days.getD ["Monday"]), weekday r = w)
        ∧ ∀ t : Int, now < t → t % 86400 = 3600 * h + 60 * mn →
            (∃ w ∈ weekly_targets (cfg.days.getD ["Monday"]), weekday t = w) → r ≤ t)
    ∧ (∀ (now : Int) (ti sd : Option String) (dy : Option Int) (iv : Option (Option Int)),
        calculate_next_execution true .weekly ⟨ti, sd, some [], dy, iv⟩ now =
          calculate_next_execution true .weekly ⟨ti, sd, some ["Monday"], dy, iv⟩ now)
    ∧ (∀ (now : Int) (ti sd : Option String) (dy : Option Int) (iv : Option (Option Int)),
        calculate_next_execution true .weekly ⟨ti, sd, some ["Funday"], dy, iv⟩ now =
          calculate_next_execution true .weekly ⟨ti, sd, some ["Monday"], dy, iv⟩ now)
    ∧ (∀ (now : Int) (ti : Option String) (d : Option (List String)) (dy : Option Int)
        (iv : Option (Option Int)) (sd sd' : Option String),
        calculate_next_execution true .weekly ⟨ti, sd, d, dy, iv⟩ now =
          calculate_next_execution true .weekly ⟨ti, sd', d, dy, iv⟩ now)
    ∧ calculate_next_execution true .weekly
        ⟨some "10:00", none, some ["Monday"], none, none⟩ (20095 * 86400 + 43200) =
      some (20101 * 86400 + 36000) := by
  refine ⟨?_, ?_, ?_, ?_, by decide⟩
  · intro now cfg h mn r hp hc
    obtain ⟨hh, hm⟩ := parse_time_hm_bounds _ _ _ hp
    simp only [calculate_next_execution, Bool.not_true, Bool.false_eq_true, if_false,
      hp] at hc
    rcases htg : weekly_targets (cfg.days.getD ["Monday"]) with _ | ⟨w₀, ws⟩
    · exact absurd htg (weekly_targets_ne_nil _)
    · rw [htg] at hc
      simp only [List.map_cons, Option.some.injEq] at hc
      set c := replace_hm now h mn with hcdef
      set A := weekly_adj now c with hAdef
      have hmin : listMin (A w₀) (ws.map A) = A w₀ ∨ listMin (A w₀) (ws.map A) ∈ ws.map A :=
        listMin_mem _ _
      have hex : ∃ w ∈ w₀ :: ws, listMin (A w₀) (ws.map A) = A w := by
        rcases hmin with hm' | hm'
        · exact ⟨w₀, by simp, hm'⟩
        · obtain ⟨w, hwmem, hweq⟩ := List.mem_map.mp hm'
          exact ⟨w, by simp [hwmem], hweq.symm⟩
      obtain ⟨wstar, hwmem, hweq⟩ := hex
      have hwlt : wstar < 7 := weekly_targets_mem_lt _ _ (htg ▸ hwmem)
      have hspec := weekly_adj_spec now h mn hh hm wstar hwlt
      have hr : r = c + 86400 * A wstar := by
        rw [← hc, hweq]
      refine ⟨?_, ?_, ?_, ?_⟩
      · rw [hr]; exact hspec.1
      · rw [hr]; exact hspec.2.1
      · exact ⟨wstar, htg ▸ hwmem, by rw [hr]; exact hspec.2.2.1⟩
      · intro t ht1 ht2 ht3
        obtain ⟨w', hw'mem, hw'day⟩ := ht3
        have hw'lt : w' < 7 := weekly_targets_mem_lt _ _ (htg ▸ hw'mem)
        have hspec' := weekly_adj_spec now h mn hh hm w' hw'lt
        have hlow : c + 86400 * A w' ≤ t := hspec'.2.2.2 t ht1 ht2 hw'day
        have hAle : A wstar ≤ A w' := by
          rw [← hweq]
          rcases List.mem_cons.mp hw'mem with rfl | hmem'
          · exact (listMin_le _ _).1
          · exact (listMin_le _ _).2 (A w') (List.mem_map_of_mem A hmem')
        omega
  · intro now ti sd dy iv
    have : weekly_targets (((some ([] : List String)).getD ["Monday"])) =
        weekly_targets (((some ["Monday"]).getD ["Monday"])) := by decide
    simp only [calculate_next_execution, this]
  · intro now ti sd dy iv
    have : weekly_targets (((some ["Funday"]).getD ["Monday"])) =
        weekly_targets (((some ["Monday"]).getD ["Monday"])) := by decide
    simp only [calculate_next_execution, this]
  · intro now ti d dy iv sd sd'
    rfl

/-- C5 witness: the general characterisation applied to the
Monday-at-10:00-on-a-Tuesday scenario. -/
theorem weekly_next_run_claim_witness :
    (20095 * 86400 + 43200 : Int) < 20101 * 86400 + 36000
    ∧ (20101 * 86400 + 36000 : Int) % 86400 = 3600 * 10 + 60 * 0 :=
  ⟨(weekly_next_run_claim.1 (20095 * 86400 + 43200)
      ⟨some "10:00", none, some ["Monday"], none, none⟩ 10 0 (20101 * 86400 + 36000)
      (by decide) (by decide)).1,
   (weekly_next_run_claim.1 (20095 * 86400 + 43200)
      ⟨some "10:00", none, some ["Monday"], none, none⟩ 10 0 (20101 * 86400 + 36000)
      (by decide) (by decide)).2.1⟩

end TaskApp
